import Mathlib

/-!
Shallow embedding of the geometry core of the gearLegs repository
(tooth.py, gear1.py, gear2.py, spinboxLegs.py).

The Python code computes with IEEE doubles and the functions
`math.sqrt`, `math.sin`, `math.cos`, `math.atan2`;
here those are modelled over the real numbers with `Real.sqrt`,
`Real.sin`, `Real.cos` and `Complex.arg`.  The Python `int(x)`
truncation toward zero is modelled by `pyInt`, and operations that can
raise `ZeroDivisionError` are modelled with `Except` where a claim is
about that failure.  Definitions follow the source line by line.
-/

open Real

/-- Python `int(x)` for a real `x`: truncation toward zero
(`int` floors nonnegative values and ceils negative ones). -/
noncomputable def pyInt (x : ℝ) : ℤ :=
  if 0 ≤ x then ⌊x⌋ else -⌊-x⌋

theorem pyInt_of_nonneg {x : ℝ} (h : 0 ≤ x) : pyInt x = ⌊x⌋ := if_pos h

theorem pyInt_of_neg {x : ℝ} (h : ¬ 0 ≤ x) : pyInt x = -⌊-x⌋ := if_neg h

namespace Tooth

/-- tooth.py `rad(deg)`: degrees to radians. -/
noncomputable def rad (deg : ℝ) : ℝ := deg * π / 180

/-- tooth.py `spurGear`: `pitchDiam = gmodule * nTeeth`. -/
def pitchDiam (nT gmodule : ℝ) : ℝ := gmodule * nT

/-- tooth.py `spurGear`: `baseDiam = pitchDiam * cos(rad(pressAngle))`. -/
noncomputable def baseDiam (nT gmodule pressAngle : ℝ) : ℝ :=
  pitchDiam nT gmodule * Real.cos (rad pressAngle)

/-- tooth.py `spurGear`: `rootDiam = pitchDiam - 2.5 * gmodule`. -/
def rootDiam (nT gmodule : ℝ) : ℝ := pitchDiam nT gmodule - 2.5 * gmodule

/-- tooth.py `spurGear`: `tipDiam = pitchDiam + 2 * gmodule`. -/
def tipDiam (nT gmodule : ℝ) : ℝ := pitchDiam nT gmodule + 2 * gmodule

end Tooth

namespace Gear1

/-- gear1.py `GearParams.__init__`:
`self.cdp = (cteeth * modul)/pi` (the center gear pitch diameter). -/
noncomputable def cdp (cteeth modul : ℝ) : ℝ := (cteeth * modul) / π

/-- gear1.py `GearParams.__init__`: `self.dt = self.cdp + 2*modul`. -/
noncomputable def dt (cteeth modul : ℝ) : ℝ := cdp cteeth modul + 2 * modul

/-- gear1.py `GearParams.__init__`: `self.dr = self.cdp - 2.5*modul`. -/
noncomputable def dr (cteeth modul : ℝ) : ℝ := cdp cteeth modul - 2.5 * modul

end Gear1

/-- C1: derived diameters.  The spur-gear builder of tooth.py satisfies all
the claimed formulas and the concrete scenario (teeth = 20, module = 3 gives
pitch 60.0, tip 66.0, root 52.5).  But the claim quantifies over every gear
built from a tooth count and a module, and in gear1.py `GearParams.__init__`
computes its pitch diameter as `(cteeth * modul)/pi`: at its own default
input `cteeth = 32`, `modul = 2` this is `64/π ≈ 20.4`, not
`module·teeth = 64`, so gear1.py violates the claimed
`pitch diameter = m·nT` (a slip fixed in gear2.py, which uses
`pd = nT * modul` with otherwise identical structure). -/
theorem spurGear_diameters_and_gear1_pitch_bug :
    Tooth.pitchDiam 20 3 = 60 ∧ Tooth.tipDiam 20 3 = 66 ∧
    Tooth.rootDiam 20 3 = 52.5 ∧
    (∀ nT m pa : ℝ,
      Tooth.pitchDiam nT m = m * nT ∧
      Tooth.baseDiam nT m pa = Tooth.pitchDiam nT m * Real.cos (Tooth.rad pa) ∧
      Tooth.rootDiam nT m = Tooth.pitchDiam nT m - 2.5 * m ∧
      Tooth.tipDiam nT m = Tooth.pitchDiam nT m + 2 * m) ∧
    Gear1.cdp 32 2 = 64 / π ∧ Gear1.cdp 32 2 ≠ 2 * 32 := by
  refine ⟨by norm_num [Tooth.pitchDiam], by norm_num [Tooth.tipDiam, Tooth.pitchDiam],
    by norm_num [Tooth.rootDiam, Tooth.pitchDiam],
    fun nT m pa => ⟨rfl, rfl, rfl, rfl⟩, by norm_num [Gear1.cdp], ?_⟩
  have hπ : (3 : ℝ) < π := Real.pi_gt_three
  have h1 : Gear1.cdp 32 2 = 64 / π := by norm_num [Gear1.cdp]
  rw [h1]
  have hlt : 64 / π < 64 := by
    apply div_lt_self <;> linarith
  intro h
  rw [h] at hlt
  norm_num at hlt

namespace Gear2

/-- gear2.py `Gear.__init__`:
`loca = (2*pi*(pN%nplanets))/nplanets`, the line-of-centers angle. -/
noncomputable def gearLoca (nplanets pN : ℕ) : ℝ :=
  2 * π * ((pN % nplanets : ℕ) : ℝ) / (nplanets : ℝ)

/-- gear2.py `Gear.__init__`: `sDel = 2*pi/sT`, the angle between sun teeth. -/
noncomputable def sunDel (sT : ℕ) : ℝ := 2 * π / (sT : ℝ)

/-- gear2.py `Gear.__init__`: `k = int(loca/sDel)` and `ta = k*sDel + sDel/2`,
the target angle. -/
noncomputable def gearTa (sT nplanets pN : ℕ) : ℝ :=
  (pyInt (gearLoca nplanets pN / sunDel sT) : ℝ) * sunDel sT + sunDel sT / 2

/-- gear2.py `Gear.__init__`, `pN > 0` branch:
`self.sma = ta + pi if ta < pi else ta - pi`. -/
noncomputable def planetSma (sT nplanets pN : ℕ) : ℝ :=
  if gearTa sT nplanets pN < π then gearTa sT nplanets pN + π
  else gearTa sT nplanets pN - π

/-- gear2.py `Gear.__init__`: `self.sma = 0`, overwritten by the planet
formula exactly when `pN > 0`. -/
noncomputable def gearSma (sT nplanets pN : ℕ) : ℝ :=
  if 0 < pN then planetSma sT nplanets pN else 0

/-- The data `Gear.__init__` stores on one gear: pitch, tip and root
diameters, line-of-centers angle and starting mesh angle. -/
structure GearRec where
  pd : ℝ
  td : ℝ
  rd : ℝ
  loca : ℝ
  sma : ℝ

/-- gear2.py `GearAssembly.__init__` data: pressure angle `a`, thickness `g`,
hole diameter `h`, module `m` (mm*10), planet count `n`, planet teeth `p`,
sun teeth `s` (all spinbox integers). -/
structure GearAssemblyParams where
  a : ℕ
  g : ℕ
  h : ℕ
  m : ℕ
  n : ℕ
  p : ℕ
  s : ℕ

/-- gear2.py `Gear.__init__` for a gear of `nT` teeth, planet number `pN`
(`pN = 0` is the sun): `modul = ap.m/10.0`, `pd = nT*modul`,
`td = pd + 2*modul`, `rd = pd - 2.5*modul`, plus `loca` and `sma`. -/
noncomputable def gearInit (ap : GearAssemblyParams) (nT pN : ℕ) : GearRec :=
  { pd := (nT : ℝ) * ((ap.m : ℝ) / 10)
    td := (nT : ℝ) * ((ap.m : ℝ) / 10) + 2 * ((ap.m : ℝ) / 10)
    rd := (nT : ℝ) * ((ap.m : ℝ) / 10) - 2.5 * ((ap.m : ℝ) / 10)
    loca := gearLoca ap.n pN
    sma := gearSma ap.s ap.n pN }

/-- gear2.py `Gear.makeGear` center offset: with a sun gear `sg` present,
`cDist = (sg.pd + self.pd)/2` and the offset is
`(cDist*cos(loca), cDist*sin(loca))`; the sun itself is at `(0, 0)`. -/
noncomputable def gearOffset : Option GearRec → GearRec → ℝ × ℝ
  | some sg, gr => (((sg.pd + gr.pd) / 2) * Real.cos gr.loca,
                    ((sg.pd + gr.pd) / 2) * Real.sin gr.loca)
  | none, _ => (0, 0)

/-- gear2.py `GearAssembly.makeAssembly`: the sun gear `Gear(s, 0)` first,
then one planet `Gear(p, 1+i)` for each `i in range(n)`, each paired with
its center offset. -/
noncomputable def makeAssembly (ap : GearAssemblyParams) : List (GearRec × (ℝ × ℝ)) :=
  (gearInit ap ap.s 0, gearOffset none (gearInit ap ap.s 0)) ::
    (List.range ap.n).map (fun i =>
      (gearInit ap ap.p (1 + i),
       gearOffset (some (gearInit ap ap.s 0)) (gearInit ap ap.p (1 + i))))

/-- The default spinbox values of gear2.py `__main__`:
`a,g,h,m,n,p,s = 20, 25, 31, 23, 5, 7, 13`. -/
def apDefault : GearAssemblyParams := ⟨20, 25, 31, 23, 5, 7, 13⟩

end Gear2

/-- The sum of the sun and planet pitch radii (half the sum of their pitch
diameters), the quantity the spec calls the radial distance of a planet. -/
noncomputable def sumPitchRadii (ap : Gear2.GearAssemblyParams) (i : ℕ) : ℝ :=
  (Gear2.gearInit ap ap.s 0).pd / 2 + (Gear2.gearInit ap ap.p (1 + i)).pd / 2

/-- C3: the starting mesh angle of planet `pN` of `nplanets` equals
`ta + π` when `ta < π` and `ta - π` otherwise, where
`ta = ⌊loca/sDel⌋*sDel + sDel/2` (Python truncation `int` agrees with the
floor because `loca/sDel ≥ 0`); the sun gear (`pN = 0`) keeps mesh angle 0. -/
theorem gear2_mesh_angle_formula (sT nplanets pN : ℕ)
    (hn : 1 ≤ nplanets) (hs : 1 ≤ sT) (hp : 1 ≤ pN) :
    Gear2.gearSma sT nplanets pN =
      (if (⌊Gear2.gearLoca nplanets pN / Gear2.sunDel sT⌋ : ℝ) * Gear2.sunDel sT
            + Gear2.sunDel sT / 2 < π
       then (⌊Gear2.gearLoca nplanets pN / Gear2.sunDel sT⌋ : ℝ) * Gear2.sunDel sT
            + Gear2.sunDel sT / 2 + π
       else (⌊Gear2.gearLoca nplanets pN / Gear2.sunDel sT⌋ : ℝ) * Gear2.sunDel sT
            + Gear2.sunDel sT / 2 - π) ∧
    Gear2.gearSma sT nplanets 0 = 0 := by
  have hsT : (0 : ℝ) < (sT : ℝ) := by exact_mod_cast hs
  have hloca : 0 ≤ Gear2.gearLoca nplanets pN := by
    unfold Gear2.gearLoca
    positivity
  have hdel : 0 < Gear2.sunDel sT := div_pos Real.two_pi_pos hsT
  have hratio : 0 ≤ Gear2.gearLoca nplanets pN / Gear2.sunDel sT :=
    div_nonneg hloca hdel.le
  constructor
  · rw [Gear2.gearSma, if_pos (show 0 < pN by omega), Gear2.planetSma, Gear2.gearTa,
      pyInt_of_nonneg hratio]
  · simp [Gear2.gearSma]

/-- Witness for C3 at the default parameters (sun 13 teeth, 5 planets,
planet number 1). -/
theorem gear2_mesh_angle_formula_witness :
    Gear2.gearSma 13 5 1 =
      (if (⌊Gear2.gearLoca 5 1 / Gear2.sunDel 13⌋ : ℝ) * Gear2.sunDel 13
            + Gear2.sunDel 13 / 2 < π
       then (⌊Gear2.gearLoca 5 1 / Gear2.sunDel 13⌋ : ℝ) * Gear2.sunDel 13
            + Gear2.sunDel 13 / 2 + π
       else (⌊Gear2.gearLoca 5 1 / Gear2.sunDel 13⌋ : ℝ) * Gear2.sunDel 13
            + Gear2.sunDel 13 / 2 - π) ∧
    Gear2.gearSma 13 5 0 = 0 :=
  gear2_mesh_angle_formula 13 5 1 (by norm_num) (by norm_num) (by norm_num)

/-- C5: `makeAssembly` produces exactly `n+1` gears: the sun first, at
center offset `(0, 0)`, then the planets `Gear(p, 1+i)` for `i = 0..n-1`
in increasing order. -/
theorem makeAssembly_structure (ap : Gear2.GearAssemblyParams) (hn : 1 ≤ ap.n) :
    (Gear2.makeAssembly ap).length = ap.n + 1 ∧
    (Gear2.makeAssembly ap)[0]? = some (Gear2.gearInit ap ap.s 0, (0, 0)) ∧
    ∀ i, i < ap.n → (Gear2.makeAssembly ap)[i + 1]? =
      some (Gear2.gearInit ap ap.p (1 + i),
        Gear2.gearOffset (some (Gear2.gearInit ap ap.s 0)) (Gear2.gearInit ap ap.p (1 + i))) := by
  refine ⟨by simp [Gear2.makeAssembly], by simp [Gear2.makeAssembly, Gear2.gearOffset], ?_⟩
  intro i hi
  simp [Gear2.makeAssembly, List.getElem?_map, List.getElem?_range, hi]

/-- Witness for C5 at the default parameters (5 planets): 6 entries, sun at
the origin first, planet 0 at position 1. -/
theorem makeAssembly_structure_witness :
    (Gear2.makeAssembly Gear2.apDefault).length = Gear2.apDefault.n + 1 ∧
    (Gear2.makeAssembly Gear2.apDefault)[0]? =
      some (Gear2.gearInit Gear2.apDefault Gear2.apDefault.s 0, (0, 0)) ∧
    (Gear2.makeAssembly Gear2.apDefault)[0 + 1]? =
      some (Gear2.gearInit Gear2.apDefault Gear2.apDefault.p (1 + 0),
        Gear2.gearOffset (some (Gear2.gearInit Gear2.apDefault Gear2.apDefault.s 0))
          (Gear2.gearInit Gear2.apDefault Gear2.apDefault.p (1 + 0))) :=
  ⟨(makeAssembly_structure Gear2.apDefault (by decide)).1,
   (makeAssembly_structure Gear2.apDefault (by decide)).2.1,
   (makeAssembly_structure Gear2.apDefault (by decide)).2.2 0 (by decide)⟩

/-- C4: the center offset of planet `i` is `(d*cos(loca), d*sin(loca))` with
`d` the sum of the sun and planet pitch radii, and its distance from the sun
center `(0,0)` is exactly `d`, so the two pitch circles are tangent by
construction. -/
theorem planet_offset_pitch_tangent (ap : Gear2.GearAssemblyParams) (i : ℕ)
    (hi : i < ap.n) :
    (Gear2.makeAssembly ap)[i + 1]? =
      some (Gear2.gearInit ap ap.p (1 + i),
        (sumPitchRadii ap i * Real.cos ((Gear2.gearInit ap ap.p (1 + i)).loca),
         sumPitchRadii ap i * Real.sin ((Gear2.gearInit ap ap.p (1 + i)).loca))) ∧
    Real.sqrt ((sumPitchRadii ap i * Real.cos ((Gear2.gearInit ap ap.p (1 + i)).loca)) ^ 2 +
               (sumPitchRadii ap i * Real.sin ((Gear2.gearInit ap ap.p (1 + i)).loca)) ^ 2) =
      sumPitchRadii ap i := by
  have hoff : Gear2.gearOffset (some (Gear2.gearInit ap ap.s 0)) (Gear2.gearInit ap ap.p (1 + i)) =
      (sumPitchRadii ap i * Real.cos ((Gear2.gearInit ap ap.p (1 + i)).loca),
       sumPitchRadii ap i * Real.sin ((Gear2.gearInit ap ap.p (1 + i)).loca)) := by
    simp only [Gear2.gearOffset, sumPitchRadii, Prod.mk.injEq]
    constructor <;> ring
  have hd : 0 ≤ sumPitchRadii ap i := by
    unfold sumPitchRadii Gear2.gearInit
    positivity
  constructor
  · rw [← hoff]
    simp [Gear2.makeAssembly, List.getElem?_map, List.getElem?_range, hi]
  · have hsq : (sumPitchRadii ap i * Real.cos ((Gear2.gearInit ap ap.p (1 + i)).loca)) ^ 2 +
        (sumPitchRadii ap i * Real.sin ((Gear2.gearInit ap ap.p (1 + i)).loca)) ^ 2 =
        sumPitchRadii ap i ^ 2 *
          (Real.cos ((Gear2.gearInit ap ap.p (1 + i)).loca) ^ 2 +
           Real.sin ((Gear2.gearInit ap ap.p (1 + i)).loca) ^ 2) := by ring
    rw [hsq, Real.cos_sq_add_sin_sq, mul_one, Real.sqrt_sq hd]

/-- Witness for C4 at the default parameters, planet `i = 0`. -/
theorem planet_offset_pitch_tangent_witness :
    (Gear2.makeAssembly Gear2.apDefault)[0 + 1]? =
      some (Gear2.gearInit Gear2.apDefault Gear2.apDefault.p (1 + 0),
        (sumPitchRadii Gear2.apDefault 0 *
           Real.cos ((Gear2.gearInit Gear2.apDefault Gear2.apDefault.p (1 + 0)).loca),
         sumPitchRadii Gear2.apDefault 0 *
           Real.sin ((Gear2.gearInit Gear2.apDefault Gear2.apDefault.p (1 + 0)).loca))) ∧
    Real.sqrt ((sumPitchRadii Gear2.apDefault 0 *
                 Real.cos ((Gear2.gearInit Gear2.apDefault Gear2.apDefault.p (1 + 0)).loca)) ^ 2 +
               (sumPitchRadii Gear2.apDefault 0 *
                 Real.sin ((Gear2.gearInit Gear2.apDefault Gear2.apDefault.p (1 + 0)).loca)) ^ 2) =
      sumPitchRadii Gear2.apDefault 0 :=
  planet_offset_pitch_tangent Gear2.apDefault 0 (by decide)

namespace Legs

/-- spinboxLegs.py `solveArcArc` loop body: `av = sqrt(uu+(p-v)**2)`
(and, with `t` in place of `p`, `bv = sqrt(uu+(t-v)**2)`). -/
noncomputable def aV (c uu v : ℝ) : ℝ := Real.sqrt (uu + (c - v) ^ 2)

/-- spinboxLegs.py `solveArcArc` loop body: `ar = r1 - av`
(and `br = r2 - bv`). -/
noncomputable def aR (c r uu v : ℝ) : ℝ := r - aV c uu v

/-- spinboxLegs.py `solveArcArc` loop body: `adf = (v-p)/av`
(and `bdf = (v-t)/bv`). -/
noncomputable def aDF (c uu v : ℝ) : ℝ := (v - c) / aV c uu v

/-- spinboxLegs.py `solveArcArc` Newton loop `for i in range(9)` with the
remaining iteration budget as fuel.  Returns the final `v`, the `ar` of the
last iteration entered (the loop always runs at least once when the fuel is
positive, so the third argument seeding `ar` is never kept), and the number
of iterations executed.  The `break` on `abs(adf-bdf) < 1e-5` happens before
the update of `v`; the `break` on `abs(ar-br) < 1e-12` happens after it. -/
noncomputable def arcGo (p t r1 r2 uu : ℝ) : ℕ → ℝ → ℝ → ℝ × ℝ × ℕ
  | 0, v, lastAr => (v, lastAr, 0)
  | fuel + 1, v, _ =>
    if |aDF p uu v - aDF t uu v| < 1e-5 then (v, aR p r1 uu v, 1)
    else
      if |aR p r1 uu v - aR t r2 uu v| < 1e-12 then
        (v + (aR p r1 uu v - aR t r2 uu v) / (aDF p uu v - aDF t uu v), aR p r1 uu v, 1)
      else
        (let rest := arcGo p t r1 r2 uu fuel
          (v + (aR p r1 uu v - aR t r2 uu v) / (aDF p uu v - aDF t uu v)) (aR p r1 uu v)
         (rest.1, rest.2.1, rest.2.2 + 1))

/-- The two shapes `solveArcArc` can return: the Python code returns the
2-tuple `(5, 0)` when there is no solution and otherwise the 4-tuple
`(ar, v, tphi, tplo)`. -/
inductive SolveResult where
  | noSol : ℝ → ℝ → SolveResult
  | sol : ℝ → ℝ → ℝ × ℝ → ℝ × ℝ → SolveResult

/-- spinboxLegs.py `ArmParams.solveArcArc(p,q,s,t,u)`: with `r1 = p-s`,
`r2 = q-t`, `uu = u*u`, return `(5, 0)` if `r1**2 < uu or r2**2 < uu`
(checked before any iteration); otherwise start Newton at the midpoint of
the two boundary intercepts at `x = u`, run the 9-iteration loop, and
return `(ar, v, tphi, tplo)` with the tangency points obtained by similar
triangles. -/
noncomputable def solveArcArc (p q s t u : ℝ) : SolveResult :=
  if (p - s) ^ 2 < u * u ∨ (q - t) ^ 2 < u * u then .noSol 5 0
  else
    let res := arcGo p t (p - s) (q - t) (u * u) 9
      ((p - Real.sqrt ((p - s) ^ 2 - u * u) + (t + Real.sqrt ((q - t) ^ 2 - u * u))) / 2) 0
    .sol res.2.1 res.1
      (u * ((p - s) / (p - s - res.2.1)), p - (p - res.1) * ((p - s) / (p - s - res.2.1)))
      (u * ((q - t) / (q - t - res.2.1)), t + (res.1 - t) * ((q - t) / (q - t - res.2.1)))

/-- spinboxLegs.py `getOblongArm` consumes `solveArcArc` by the 4-way
unpacking `rl, vl, p1, p2 = self.solveArcArc(...)`: it has a value only on
the 4-tuple shape; on the 2-tuple `(5, 0)` Python raises `ValueError`. -/
def unpack4 : SolveResult → Option (ℝ × ℝ × (ℝ × ℝ) × (ℝ × ℝ))
  | .sol r v hi lo => some (r, v, hi, lo)
  | .noSol _ _ => none

/-- The iteration count of `arcGo` never exceeds its fuel. -/
theorem arcGo_count_le (p t r1 r2 uu : ℝ) :
    ∀ fuel v lastAr, (arcGo p t r1 r2 uu fuel v lastAr).2.2 ≤ fuel := by
  intro fuel
  induction fuel with
  | zero => intro v lastAr; simp [arcGo]
  | succ f ih =>
    intro v lastAr
    rw [arcGo]
    split
    · exact Nat.succ_le_succ (Nat.zero_le f)
    · split
      · exact Nat.succ_le_succ (Nat.zero_le f)
      · simpa using Nat.succ_le_succ (ih _ _)

end Legs

/-- C2 (corrected): at the default arm parameters `p,q,s,t = 40,10,-30,-100`
with offset `u = 1000`, the offset exceeds `r1 = 70`, so `solveArcArc`
returns the 2-tuple `(5, 0)`; the caller `getOblongArm` unpacks four
components (`rl, vl, p1, p2 = solveArcArc(...)`), which has no value on
that 2-tuple — Python raises `ValueError`.  This refutes the final claim
clause that callers can consume either outcome without crashing. -/
theorem solveArcArc_caller_crashes_on_noSol :
    Legs.solveArcArc 40 10 (-30) (-100) 1000 = .noSol 5 0 ∧
    Legs.unpack4 (Legs.solveArcArc 40 10 (-30) (-100) 1000) = none ∧
    ((40 : ℝ) - (-30)) ^ 2 < 1000 * 1000 := by
  have hcond : ((40 : ℝ) - (-30)) ^ 2 < 1000 * 1000 ∨ ((10 : ℝ) - (-100)) ^ 2 < 1000 * 1000 :=
    Or.inl (by norm_num)
  have h1 : Legs.solveArcArc 40 10 (-30) (-100) 1000 = .noSol 5 0 := by
    rw [Legs.solveArcArc, if_pos hcond]
  exact ⟨h1, by rw [h1]; rfl, by norm_num⟩

/-- C2 (amended): `solveArcArc` returns the distinct `NoSolution` value
`(5, 0)` exactly when `u² > r1²` or `u² > r2²` with `r1 = p-s`, `r2 = q-t`,
and that check is made before any Newton iteration; on every other input it
returns a full 4-tuple solution.  However the 4-way unpacking of the caller
has a value only on the 4-tuple: on `NoSolution` it fails, so the clause
that callers can consume either outcome without crashing does not hold. -/
theorem solveArcArc_noSolution_iff (p q s t u : ℝ) :
    ((p - s) ^ 2 < u ^ 2 ∨ (q - t) ^ 2 < u ^ 2 →
      Legs.solveArcArc p q s t u = .noSol 5 0) ∧
    (¬((p - s) ^ 2 < u ^ 2 ∨ (q - t) ^ 2 < u ^ 2) →
      ∃ r v hi lo, Legs.solveArcArc p q s t u = .sol r v hi lo) ∧
    (∀ a b : ℝ, Legs.unpack4 (.noSol a b) = none) ∧
    (∀ (r v : ℝ) (hi lo : ℝ × ℝ), Legs.unpack4 (.sol r v hi lo) = some (r, v, hi, lo)) := by
  have hsq : u ^ 2 = u * u := sq u
  refine ⟨?_, ?_, fun a b => rfl, fun r v hi lo => rfl⟩
  · intro h
    rw [Legs.solveArcArc, if_pos (by rw [← hsq]; exact h)]
  · intro h
    rw [Legs.solveArcArc, if_neg (by rw [hsq] at h; exact h)]
    exact ⟨_, _, _, _, rfl⟩

/-- Witness for the amended C2: at `u = 2000` the offset is too large and
the `NoSolution` value is returned; at `u = 5` (spec scenario B has
`r1 = r2 = 70, 110` here) both squares dominate `u²` and a full 4-tuple
solution is returned. -/
theorem solveArcArc_noSolution_iff_witness :
    Legs.solveArcArc 40 10 (-30) (-100) 2000 = .noSol 5 0 ∧
    ∃ r v hi lo, Legs.solveArcArc 40 10 (-30) (-100) 5 = .sol r v hi lo :=
  ⟨(solveArcArc_noSolution_iff 40 10 (-30) (-100) 2000).1 (Or.inl (by norm_num)),
   (solveArcArc_noSolution_iff 40 10 (-30) (-100) 5).2.1 (by norm_num)⟩

/-- C6: the Newton loop of `solveArcArc` runs on a fixed budget of 9
iterations (it is a structurally terminating recursion, and its iteration
count never exceeds 9), and it stops early in exactly two cases: when
`|adf - bdf| < 1e-5`, checked before the update of `v` is applied, the
current `v` is kept; otherwise, after updating `v`, it stops when
`|ar - br| < 1e-12`; when neither bound holds the loop continues, consuming
one of the 9 iterations. -/
theorem newton_loop_nine_iterations (p t r1 r2 uu v lastAr : ℝ) (f : ℕ) :
    (Legs.arcGo p t r1 r2 uu 9 v lastAr).2.2 ≤ 9 ∧
    (|Legs.aDF p uu v - Legs.aDF t uu v| < 1e-5 →
      Legs.arcGo p t r1 r2 uu (f + 1) v lastAr = (v, Legs.aR p r1 uu v, 1)) ∧
    (¬ |Legs.aDF p uu v - Legs.aDF t uu v| < 1e-5 →
      |Legs.aR p r1 uu v - Legs.aR t r2 uu v| < 1e-12 →
      Legs.arcGo p t r1 r2 uu (f + 1) v lastAr =
        (v + (Legs.aR p r1 uu v - Legs.aR t r2 uu v) /
            (Legs.aDF p uu v - Legs.aDF t uu v), Legs.aR p r1 uu v, 1)) ∧
    (¬ |Legs.aDF p uu v - Legs.aDF t uu v| < 1e-5 →
      ¬ |Legs.aR p r1 uu v - Legs.aR t r2 uu v| < 1e-12 →
      (Legs.arcGo p t r1 r2 uu (f + 1) v lastAr).2.2 =
        (Legs.arcGo p t r1 r2 uu f
          (v + (Legs.aR p r1 uu v - Legs.aR t r2 uu v) /
            (Legs.aDF p uu v - Legs.aDF t uu v)) (Legs.aR p r1 uu v)).2.2 + 1) := by
  refine ⟨Legs.arcGo_count_le p t r1 r2 uu 9 v lastAr, ?_, ?_, ?_⟩
  · intro h1
    rw [Legs.arcGo, if_pos h1]
  · intro h1 h2
    rw [Legs.arcGo, if_neg h1, if_pos h2]
  · intro h1 h2
    rw [Legs.arcGo, if_neg h1, if_neg h2]

/-- Witness for C6: at `p = 1`, `t = -1`, `uu = 0`, `v = 1000` the two
derivative terms are `999/999` and `1001/1001`, so their difference is 0 and
the derivative early stop fires, keeping `v`. -/
theorem newton_loop_nine_iterations_witness :
    (Legs.arcGo 1 (-1) 0 0 0 9 1000 0).2.2 ≤ 9 ∧
    Legs.arcGo 1 (-1) 0 0 0 1 1000 0 = (1000, Legs.aR 1 0 0 1000, 1) := by
  have hsq1 : Real.sqrt (0 + ((1 : ℝ) - 1000) ^ 2) = 999 := by
    rw [zero_add, show ((1 : ℝ) - 1000) ^ 2 = 999 ^ 2 by norm_num]
    exact Real.sqrt_sq (by norm_num)
  have hsq2 : Real.sqrt (0 + ((-1 : ℝ) - 1000) ^ 2) = 1001 := by
    rw [zero_add, show ((-1 : ℝ) - 1000) ^ 2 = 1001 ^ 2 by norm_num]
    exact Real.sqrt_sq (by norm_num)
  have hdf : |Legs.aDF 1 0 1000 - Legs.aDF (-1) 0 1000| < 1e-5 := by
    rw [Legs.aDF, Legs.aDF, Legs.aV, Legs.aV, hsq1, hsq2]
    norm_num
  exact ⟨(newton_loop_nine_iterations 1 (-1) 0 0 0 1000 0 0).1,
    (newton_loop_nine_iterations 1 (-1) 0 0 0 1000 0 0).2.1 hdf⟩

namespace Tooth

/-- Python `atan2(y, x)`, modelled as the argument of the complex number
`x + y*i` (both have range `(-π, π]` and `atan2(0, x) = 0` for `x ≥ 0`). -/
noncomputable def pyAtan2 (y x : ℝ) : ℝ :=
  Complex.arg (Complex.ofReal x + Complex.ofReal y * Complex.I)

/-- tooth.py `round3(v)`: `int(1000*v+0.5)/1000.0`. -/
noncomputable def round3 (v : ℝ) : ℝ := (pyInt (1000 * v + 0.5) : ℝ) / 1000

/-- tooth.py `rotated(pl, ra)`: rotate every point of `pl` by `ra` radians
and round both coordinates with `round3`. -/
noncomputable def rotated (pl : List (ℝ × ℝ)) (ra : ℝ) : List (ℝ × ℝ) :=
  pl.map (fun pt => (round3 (pt.1 * Real.cos ra - pt.2 * Real.sin ra),
                     round3 (pt.1 * Real.sin ra + pt.2 * Real.cos ra)))

/-- tooth.py `spurGear` root-gap smoothing block, for a half-tooth point
list with head `(x, y)` and tail `rest`:
`aeps = atan2(y,x); adel = pang-2*aeps; g = rr*adel; u = g/20;`
`if g>0: points = rotated([[rr,0],[rr+u,-u*6],[rr+u*3,-u*8]], tang)`
`+ points[0 if x>rr+u*3 else 1:]`. -/
noncomputable def gapSmooth (x y : ℝ) (rest : List (ℝ × ℝ)) (rr pang tang : ℝ) :
    List (ℝ × ℝ) :=
  let adel := pang - 2 * pyAtan2 y x
  let g := rr * adel
  let u := g / 20
  if 0 < g then
    rotated [(rr, 0), (rr + u, -(u * 6)), (rr + u * 3, -(u * 8))] tang ++
      (if rr + u * 3 < x then (x, y) :: rest else rest)
  else (x, y) :: rest

end Tooth

/-- Evaluation rule for `round3` when its scaled argument is nonnegative. -/
theorem round3_eq_of_bounds (v : ℝ) (m : ℤ) (h0 : 0 ≤ 1000 * v + 0.5)
    (h1 : (m : ℝ) ≤ 1000 * v + 0.5) (h2 : 1000 * v + 0.5 < m + 1) :
    Tooth.round3 v = (m : ℝ) / 1000 := by
  rw [Tooth.round3, pyInt_of_nonneg h0, Int.floor_eq_iff.mpr ⟨h1, h2⟩]

/-- Evaluation rule for `round3` when its scaled argument is negative:
Python `int` then truncates upward (toward zero). -/
theorem round3_eq_of_bounds_neg (v : ℝ) (m : ℤ) (h0 : ¬ 0 ≤ 1000 * v + 0.5)
    (h1 : (m : ℝ) ≤ -(1000 * v + 0.5)) (h2 : -(1000 * v + 0.5) < m + 1) :
    Tooth.round3 v = -((m : ℝ) / 1000) := by
  rw [Tooth.round3, pyInt_of_neg h0, Int.floor_eq_iff.mpr ⟨h1, h2⟩]
  push_cast
  ring

/-- Rotation by 0 radians only applies the rounding to both coordinates. -/
theorem rotated_zero (pl : List (ℝ × ℝ)) :
    Tooth.rotated pl 0 = pl.map (fun pt => (Tooth.round3 pt.1, Tooth.round3 pt.2)) := by
  simp [Tooth.rotated]

/-- Shape of the smoothing block when the gap width `g` is positive: the
three rotated curve points are prepended, and the original head `(x, y)` is
kept only when `x` lies strictly beyond `rr + 3u`. -/
theorem gapSmooth_pos (x y : ℝ) (rest : List (ℝ × ℝ)) (rr pang tang g u : ℝ)
    (hgdef : g = rr * (pang - 2 * Tooth.pyAtan2 y x)) (hudef : u = g / 20)
    (hg : 0 < g) :
    Tooth.gapSmooth x y rest rr pang tang =
      Tooth.rotated [(rr, 0), (rr + u, -(u * 6)), (rr + u * 3, -(u * 8))] tang ++
        (if rr + u * 3 < x then (x, y) :: rest else rest) := by
  subst hudef
  subst hgdef
  simp only [Tooth.gapSmooth]
  rw [if_pos hg]

/-- C9 (counterexample): the coordinate `v = -0.6` is itself an integer
multiple of 0.001 (namely `-600 * 0.001`), so the multiple of 0.001 nearest
to it is `-0.6`; but `round3(-0.6) = int(-599.5)/1000 = -0.599` because
Python `int` truncates toward zero.  Hence `round3` does not return the
nearest multiple of 0.001 for every coordinate value. -/
theorem round3_not_nearest_at_neg :
    Tooth.round3 (-(3 / 5)) = -(599 / 1000) ∧
    (-(3 / 5) : ℝ) = (-600 : ℤ) * (1 / 1000) ∧
    Tooth.round3 (-(3 / 5)) ≠ -(3 / 5) := by
  have h : Tooth.round3 (-(3 / 5)) = -((599 : ℤ) / 1000 : ℝ) := by
    apply round3_eq_of_bounds_neg <;> norm_num
  refine ⟨by rw [h]; norm_num, by norm_num, by rw [h]; norm_num⟩

/-- C9 (amended): for every nonnegative coordinate value `v`, `round3 v` is
`⌊1000*v + 0.5⌋/1000`, which is a nearest multiple of 0.001 to `v` (ties
rounded up), and `rotated` applies `round3` to both coordinates of every
point after rotation; for negative `v` the truncation toward zero of
the Python `int` truncation can shift the result off the nearest multiple by up to
0.001. -/
theorem round3_nearest_of_nonneg (v : ℝ) (hv : 0 ≤ v) :
    Tooth.round3 v = (⌊1000 * v + 0.5⌋ : ℝ) / 1000 ∧
    (∀ k : ℤ, |Tooth.round3 v - v| ≤ |(k : ℝ) / 1000 - v|) ∧
    (∀ (pl : List (ℝ × ℝ)) (ra : ℝ), Tooth.rotated pl ra =
      pl.map (fun pt => (Tooth.round3 (pt.1 * Real.cos ra - pt.2 * Real.sin ra),
                         Tooth.round3 (pt.1 * Real.sin ra + pt.2 * Real.cos ra)))) := by
  have harg : (0 : ℝ) ≤ 1000 * v + 0.5 := by nlinarith
  have h1 : Tooth.round3 v = (⌊1000 * v + 0.5⌋ : ℝ) / 1000 := by
    rw [Tooth.round3, pyInt_of_nonneg harg]
  refine ⟨h1, ?_, fun pl ra => rfl⟩
  intro k
  set m : ℤ := ⌊1000 * v + 0.5⌋ with hm
  have hub : (m : ℝ) ≤ 1000 * v + 0.5 := Int.floor_le _
  have hlb : 1000 * v + 0.5 < (m : ℝ) + 1 := Int.lt_floor_add_one _
  have hmb : |(m : ℝ) - 1000 * v| ≤ 1 / 2 := by
    rw [abs_le]
    constructor <;> [linarith; linarith]
  have e1 : |Tooth.round3 v - v| = |(m : ℝ) - 1000 * v| / 1000 := by
    rw [h1, show (m : ℝ) / 1000 - v = ((m : ℝ) - 1000 * v) / 1000 by ring, abs_div]
    norm_num
  have e2 : |(k : ℝ) / 1000 - v| = |(k : ℝ) - 1000 * v| / 1000 := by
    rw [show (k : ℝ) / 1000 - v = ((k : ℝ) - 1000 * v) / 1000 by ring, abs_div]
    norm_num
  rw [e1, e2]
  by_cases hk : k = m
  · rw [hk]
  · have h1k : (1 : ℝ) ≤ |(k : ℝ) - (m : ℝ)| := by
      have h0 : (1 : ℝ) ≤ |((k - m : ℤ) : ℝ)| := by
        rw [← Int.cast_abs]
        exact_mod_cast Int.one_le_abs (sub_ne_zero.mpr hk)
      rwa [Int.cast_sub] at h0
    have htri : |(k : ℝ) - (m : ℝ)| ≤ |(k : ℝ) - 1000 * v| + |(m : ℝ) - 1000 * v| := by
      have hsplit : (k : ℝ) - (m : ℝ) = ((k : ℝ) - 1000 * v) - ((m : ℝ) - 1000 * v) := by
        ring
      rw [hsplit]
      exact abs_sub _ _
    linarith

/-- Witness for the amended C9 at `v = 3/5`: `round3` gives `600/1000`,
nearer to `3/5` than the multiple `601/1000`, and rotation maps every point
through `round3`. -/
theorem round3_nearest_of_nonneg_witness :
    Tooth.round3 (3 / 5) = (⌊1000 * (3 / 5 : ℝ) + 0.5⌋ : ℝ) / 1000 ∧
    |Tooth.round3 (3 / 5) - 3 / 5| ≤ |((601 : ℤ) : ℝ) / 1000 - 3 / 5| ∧
    Tooth.rotated [((1 : ℝ), (0 : ℝ))] 0 =
      [((1 : ℝ), (0 : ℝ))].map (fun pt =>
        (Tooth.round3 (pt.1 * Real.cos 0 - pt.2 * Real.sin 0),
         Tooth.round3 (pt.1 * Real.sin 0 + pt.2 * Real.cos 0))) :=
  ⟨(round3_nearest_of_nonneg (3 / 5) (by norm_num)).1,
   (round3_nearest_of_nonneg (3 / 5) (by norm_num)).2.1 601,
   (round3_nearest_of_nonneg (3 / 5) (by norm_num)).2.2 [((1 : ℝ), (0 : ℝ))] 0⟩

/-- Python `atan2(0, x) = 0` for nonnegative `x`. -/
theorem pyAtan2_zero_of_nonneg (x : ℝ) (hx : 0 ≤ x) : Tooth.pyAtan2 0 x = 0 := by
  rw [Tooth.pyAtan2]
  have h : Complex.ofReal x + Complex.ofReal 0 * Complex.I = Complex.ofReal x := by
    simp
  rw [h]
  exact Complex.arg_ofReal_of_nonneg hx

/-- C7 (counterexample): take a half-tooth list with head `(1.2, 0)` and
tail `[(2, 0)]`, root radius `rr = 1`, `pang = 2`, `tang = 0`.  Then
`g = 2 > 0`, `u = 0.1`, and the head coordinate `x = 1.2` is not beyond the
maximum curve x-coordinate `rr + 3u = 1.3`, so the claimed skip condition holds.
Yet the first smoothing point survives — it is the head `(1, 0)` of the
result — and what is dropped is the original first involute point
`(1.2, 0)`: the output keeps all three smoothing points (rounded to
`(1, 0), (1.1, -0.599), (1.3, -0.799)`) followed by the tail `(2, 0)`. -/
theorem gapSmooth_keeps_first_smoothing_point :
    Tooth.gapSmooth 1.2 0 [(2, 0)] 1 2 0 =
      [(1, 0), (1.1, -0.599), (1.3, -0.799), (2, 0)] ∧
    ¬ ((1 : ℝ) + 1 * (2 - 2 * Tooth.pyAtan2 0 1.2) / 20 * 3 < 1.2) := by
  have hatan : Tooth.pyAtan2 0 1.2 = 0 := pyAtan2_zero_of_nonneg 1.2 (by norm_num)
  have hgval : (1 : ℝ) * (2 - 2 * Tooth.pyAtan2 0 1.2) = 2 := by
    rw [hatan]
    norm_num
  have huval : (1 : ℝ) * (2 - 2 * Tooth.pyAtan2 0 1.2) / 20 = 1 / 10 := by
    rw [hgval]
    norm_num
  have r10 : Tooth.round3 (1 : ℝ) = 1 := by
    rw [round3_eq_of_bounds (1 : ℝ) 1000 (by norm_num) (by norm_num) (by norm_num)]
    norm_num
  have r0 : Tooth.round3 (0 : ℝ) = 0 := by
    rw [round3_eq_of_bounds (0 : ℝ) 0 (by norm_num) (by norm_num) (by norm_num)]
    norm_num
  have r11 : Tooth.round3 ((1 : ℝ) + 1 / 10) = 1.1 := by
    rw [round3_eq_of_bounds ((1 : ℝ) + 1 / 10) 1100 (by norm_num) (by norm_num) (by norm_num)]
    norm_num
  have rm6 : Tooth.round3 (-((1 : ℝ) / 10 * 6)) = -0.599 := by
    rw [round3_eq_of_bounds_neg (-((1 : ℝ) / 10 * 6)) 599 (by norm_num) (by norm_num)
      (by norm_num)]
    norm_num
  have r13 : Tooth.round3 ((1 : ℝ) + 1 / 10 * 3) = 1.3 := by
    rw [round3_eq_of_bounds ((1 : ℝ) + 1 / 10 * 3) 1300 (by norm_num) (by norm_num)
      (by norm_num)]
    norm_num
  have rm8 : Tooth.round3 (-((1 : ℝ) / 10 * 8)) = -0.799 := by
    rw [round3_eq_of_bounds_neg (-((1 : ℝ) / 10 * 8)) 799 (by norm_num) (by norm_num)
      (by norm_num)]
    norm_num
  constructor
  · rw [gapSmooth_pos 1.2 0 [(2, 0)] 1 2 0 (1 * (2 - 2 * Tooth.pyAtan2 0 1.2))
      (1 * (2 - 2 * Tooth.pyAtan2 0 1.2) / 20) rfl rfl (by rw [hgval]; norm_num)]
    rw [huval, if_neg (by norm_num), rotated_zero]
    simp only [List.map_cons, List.map_nil, List.cons_append, List.nil_append]
    rw [r10, r0, r11, rm6, r13, rm8]
  · rw [huval]
    norm_num

/-- C7 (amended): when the root-gap smoothing applies (`g > 0`), exactly the
3 rotated curve points parametrized by `u = g/20` are inserted at the front
of the half-tooth point list; the conditionally skipped point is the
original first involute point `(x, y)` — not the first smoothing point —
and it is skipped when its x-coordinate does not exceed the maximum
x-coordinate `rr + 3u` of the curve. -/
theorem gapSmooth_three_inserted_head_skipped (x y : ℝ) (rest : List (ℝ × ℝ))
    (rr pang tang g u : ℝ) (hgdef : g = rr * (pang - 2 * Tooth.pyAtan2 y x))
    (hudef : u = g / 20) (hg : 0 < g) :
    Tooth.gapSmooth x y rest rr pang tang =
      Tooth.rotated [(rr, 0), (rr + u, -(u * 6)), (rr + u * 3, -(u * 8))] tang ++
        (if rr + u * 3 < x then (x, y) :: rest else rest) ∧
    (Tooth.gapSmooth x y rest rr pang tang).length =
      3 + (if rr + u * 3 < x then rest.length + 1 else rest.length) ∧
    (¬ rr + u * 3 < x →
      Tooth.gapSmooth x y rest rr pang tang =
        Tooth.rotated [(rr, 0), (rr + u, -(u * 6)), (rr + u * 3, -(u * 8))] tang ++ rest) := by
  have h := gapSmooth_pos x y rest rr pang tang g u hgdef hudef hg
  refine ⟨h, ?_, ?_⟩
  · rw [h, List.length_append]
    have hlen : (Tooth.rotated [(rr, 0), (rr + u, -(u * 6)),
        (rr + u * 3, -(u * 8))] tang).length = 3 := by
      simp [Tooth.rotated]
    rw [hlen]
    by_cases hc : rr + u * 3 < x
    · rw [if_pos hc, if_pos hc]
      simp
    · rw [if_neg hc, if_neg hc]
  · intro hc
    rw [h, if_neg hc]

/-- Witness for the amended C7 with head `(5, 0)`, empty tail, `rr = 4`,
`pang = 2`, `tang = 0`: here `g = 8 > 0` and `u = 0.4`. -/
theorem gapSmooth_three_inserted_head_skipped_witness :
    Tooth.gapSmooth 5 0 [] 4 2 0 =
      Tooth.rotated [(4, 0),
        (4 + 4 * (2 - 2 * Tooth.pyAtan2 0 5) / 20,
         -(4 * (2 - 2 * Tooth.pyAtan2 0 5) / 20 * 6)),
        (4 + 4 * (2 - 2 * Tooth.pyAtan2 0 5) / 20 * 3,
         -(4 * (2 - 2 * Tooth.pyAtan2 0 5) / 20 * 8))] 0 ++
        (if 4 + 4 * (2 - 2 * Tooth.pyAtan2 0 5) / 20 * 3 < 5 then [(5, 0)] else []) ∧
    (Tooth.gapSmooth 5 0 [] 4 2 0).length =
      3 + (if 4 + 4 * (2 - 2 * Tooth.pyAtan2 0 5) / 20 * 3 < 5 then
        ([] : List (ℝ × ℝ)).length + 1 else ([] : List (ℝ × ℝ)).length) ∧
    Tooth.gapSmooth 5 0 [] 4 2 0 =
      Tooth.rotated [(4, 0),
        (4 + 4 * (2 - 2 * Tooth.pyAtan2 0 5) / 20,
         -(4 * (2 - 2 * Tooth.pyAtan2 0 5) / 20 * 6)),
        (4 + 4 * (2 - 2 * Tooth.pyAtan2 0 5) / 20 * 3,
         -(4 * (2 - 2 * Tooth.pyAtan2 0 5) / 20 * 8))] 0 ++ [] :=
  ⟨(gapSmooth_three_inserted_head_skipped 5 0 [] 4 2 0
      (4 * (2 - 2 * Tooth.pyAtan2 0 5)) (4 * (2 - 2 * Tooth.pyAtan2 0 5) / 20) rfl rfl
      (by rw [pyAtan2_zero_of_nonneg 5 (by norm_num)]; norm_num)).1,
   (gapSmooth_three_inserted_head_skipped 5 0 [] 4 2 0
      (4 * (2 - 2 * Tooth.pyAtan2 0 5)) (4 * (2 - 2 * Tooth.pyAtan2 0 5) / 20) rfl rfl
      (by rw [pyAtan2_zero_of_nonneg 5 (by norm_num)]; norm_num)).2.1,
   (gapSmooth_three_inserted_head_skipped 5 0 [] 4 2 0
      (4 * (2 - 2 * Tooth.pyAtan2 0 5)) (4 * (2 - 2 * Tooth.pyAtan2 0 5) / 20) rfl rfl
      (by rw [pyAtan2_zero_of_nonneg 5 (by norm_num)]; norm_num)).2.2
     (by rw [pyAtan2_zero_of_nonneg 5 (by norm_num)]; norm_num)⟩

/-- C8 (counterexample): with sun tooth count 1 and 2 evenly spaced planets,
both planets receive the same mesh angle 0 (their target angles are both
exactly π), so the planet mesh angles are not strictly increasing (mod 2π)
for every sun tooth count ≥ 1. -/
theorem mesh_angles_equal_for_small_sun :
    Gear2.planetSma 1 2 0 = Gear2.planetSma 1 2 1 ∧ Gear2.planetSma 1 2 1 = 0 := by
  have hdel : Gear2.sunDel 1 = 2 * π := by
    rw [Gear2.sunDel]
    norm_num
  have hl0 : Gear2.gearLoca 2 0 = 0 := by
    simp [Gear2.gearLoca]
  have hl1 : Gear2.gearLoca 2 1 = π := by
    rw [Gear2.gearLoca]
    norm_num
  have hta0 : Gear2.gearTa 1 2 0 = π := by
    rw [Gear2.gearTa, hl0, hdel, zero_div, pyInt_of_nonneg le_rfl]
    simp
  have hta1 : Gear2.gearTa 1 2 1 = π := by
    rw [Gear2.gearTa, hl1, hdel]
    have hr : π / (2 * π) = 1 / 2 := by
      rw [div_eq_iff (by positivity : (2 : ℝ) * π ≠ 0)]
      ring
    rw [hr, pyInt_of_nonneg (by norm_num)]
    rw [show ⌊(1 / 2 : ℝ)⌋ = 0 from by norm_num [Int.floor_eq_iff]]
    push_cast
    ring
  have hs0 : Gear2.planetSma 1 2 0 = 0 := by
    rw [Gear2.planetSma, hta0, if_neg (lt_irrefl π)]
    ring
  have hs1 : Gear2.planetSma 1 2 1 = 0 := by
    rw [Gear2.planetSma, hta1, if_neg (lt_irrefl π)]
    ring
  exact ⟨hs0.trans hs1.symm, hs1⟩

/-- For a planet index below the planet count, the target angle is built
from the natural division `k*sT/n`. -/
theorem gearTa_natDiv (sT n k : ℕ) (hs : 1 ≤ sT) (hn : 1 ≤ n) (hk : k < n) :
    Gear2.gearTa sT n k =
      ((k * sT / n : ℕ) : ℝ) * Gear2.sunDel sT + Gear2.sunDel sT / 2 := by
  have hnR : (0 : ℝ) < (n : ℝ) := by exact_mod_cast hn
  have hsR : (0 : ℝ) < (sT : ℝ) := by exact_mod_cast hs
  have hπ : (0 : ℝ) < π := Real.pi_pos
  have hmod : k % n = k := Nat.mod_eq_of_lt hk
  have hratio : Gear2.gearLoca n k / Gear2.sunDel sT =
      ((k * sT : ℕ) : ℝ) / ((n : ℕ) : ℝ) := by
    rw [Gear2.gearLoca, Gear2.sunDel, hmod]
    push_cast
    have hn0 : (n : ℝ) ≠ 0 := ne_of_gt hnR
    have hs0 : (sT : ℝ) ≠ 0 := ne_of_gt hsR
    have hπ0 : π ≠ 0 := ne_of_gt hπ
    field_simp
    ring
  have hfloor : ⌊((k * sT : ℕ) : ℝ) / ((n : ℕ) : ℝ)⌋ = ((k * sT / n : ℕ) : ℤ) := by
    rw [← Int.natCast_floor_eq_floor (by positivity), Nat.floor_div_eq_div]
  rw [Gear2.gearTa, hratio, pyInt_of_nonneg (by positivity), hfloor]
  rw [Int.cast_natCast]

/-- Strict monotonicity of `k*sT/n` in `k` when `sT ≥ n`. -/
theorem natDiv_strictMono (sT n k k2 : ℕ) (hn : 1 ≤ n) (hns : n ≤ sT)
    (hkk : k < k2) : k * sT / n < k2 * sT / n := by
  have h1 : (k + 1) * sT ≤ k2 * sT := Nat.mul_le_mul_right sT hkk
  have h2 : k * sT + n ≤ (k + 1) * sT := by
    have he : (k + 1) * sT = k * sT + sT := by ring
    omega
  have h3 : k * sT / n + 1 = (k * sT + n) / n := (Nat.add_div_right _ (by omega)).symm
  have h4 : (k * sT + n) / n ≤ k2 * sT / n := Nat.div_le_div_right (le_trans h2 h1)
  omega

/-- Upper bound on the skipped-teeth count: `k*sT/n ≤ sT - 1` for `k < n`. -/
theorem natDiv_le_sub_one (sT n k : ℕ) (hs : 1 ≤ sT) (hn : 1 ≤ n) (hk : k < n) :
    k * sT / n ≤ sT - 1 := by
  have hlt : k * sT / n < sT := by
    rw [Nat.div_lt_iff_lt_mul (by omega : 0 < n)]
    calc k * sT < n * sT := (Nat.mul_lt_mul_right (by omega : 0 < sT)).mpr hk
    _ = sT * n := Nat.mul_comm n sT
  omega

/-- C8 (amended): for evenly spaced planets `k = 0..n-1` (the planet
numbers `1..n` reach exactly these residues through `pN % n`), the target
angles are strictly increasing in `k` and the mesh angles are pairwise
distinct, provided `sT ≥ n`; for `sT < n` two planets can share a mesh
angle (see the counterexample with `sT = 1`, `n = 2`), so the claimed
quantification over every sun tooth count ≥ 1 fails. -/
theorem planet_mesh_angles_strictly_increasing (sT n k k2 : ℕ)
    (hn : 1 ≤ n) (hns : n ≤ sT) (hkk : k < k2) (hk2 : k2 < n) :
    Gear2.gearTa sT n k < Gear2.gearTa sT n k2 ∧
    Gear2.planetSma sT n k ≠ Gear2.planetSma sT n k2 := by
  have hs : 1 ≤ sT := le_trans hn hns
  have hk : k < n := lt_trans hkk hk2
  have hsR : (0 : ℝ) < (sT : ℝ) := by exact_mod_cast hs
  have hdel : 0 < Gear2.sunDel sT := div_pos Real.two_pi_pos hsR
  have hA := gearTa_natDiv sT n k hs hn hk
  have hB := gearTa_natDiv sT n k2 hs hn hk2
  have hmono : k * sT / n < k2 * sT / n := natDiv_strictMono sT n k k2 hn hns hkk
  have hcast : ((k * sT / n : ℕ) : ℝ) < ((k2 * sT / n : ℕ) : ℝ) := by exact_mod_cast hmono
  have hlt : Gear2.gearTa sT n k < Gear2.gearTa sT n k2 := by
    rw [hA, hB]
    have hmul := mul_lt_mul_of_pos_right hcast hdel
    linarith
  refine ⟨hlt, ?_⟩
  have hub : ((k2 * sT / n : ℕ) : ℝ) ≤ (sT : ℝ) - 1 := by
    have h1 : k2 * sT / n ≤ sT - 1 := natDiv_le_sub_one sT n k2 hs hn hk2
    have h2 : ((k2 * sT / n : ℕ) : ℝ) ≤ ((sT - 1 : ℕ) : ℝ) := by exact_mod_cast h1
    rwa [Nat.cast_sub hs, Nat.cast_one] at h2
  have hlbA : (0 : ℝ) ≤ ((k * sT / n : ℕ) : ℝ) := Nat.cast_nonneg _
  have h2pi : (sT : ℝ) * Gear2.sunDel sT = 2 * π := by
    rw [Gear2.sunDel]
    field_simp
  have hdiff : Gear2.gearTa sT n k2 - Gear2.gearTa sT n k < 2 * π := by
    rw [hA, hB]
    have he : ((k2 * sT / n : ℕ) : ℝ) * Gear2.sunDel sT + Gear2.sunDel sT / 2 -
        (((k * sT / n : ℕ) : ℝ) * Gear2.sunDel sT + Gear2.sunDel sT / 2) =
        (((k2 * sT / n : ℕ) : ℝ) - ((k * sT / n : ℕ) : ℝ)) * Gear2.sunDel sT := by
      ring
    rw [he]
    have hle : ((k2 * sT / n : ℕ) : ℝ) - ((k * sT / n : ℕ) : ℝ) ≤ (sT : ℝ) - 1 := by
      linarith
    have hstep : (((k2 * sT / n : ℕ) : ℝ) - ((k * sT / n : ℕ) : ℝ)) * Gear2.sunDel sT ≤
        ((sT : ℝ) - 1) * Gear2.sunDel sT := mul_le_mul_of_nonneg_right hle hdel.le
    have hfin : ((sT : ℝ) - 1) * Gear2.sunDel sT < (sT : ℝ) * Gear2.sunDel sT := by
      have := mul_lt_mul_of_pos_right (show (sT : ℝ) - 1 < (sT : ℝ) by linarith) hdel
      linarith
    calc (((k2 * sT / n : ℕ) : ℝ) - ((k * sT / n : ℕ) : ℝ)) * Gear2.sunDel sT ≤
        ((sT : ℝ) - 1) * Gear2.sunDel sT := hstep
    _ < (sT : ℝ) * Gear2.sunDel sT := hfin
    _ = 2 * π := h2pi
  rw [Gear2.planetSma, Gear2.planetSma]
  by_cases hc1 : Gear2.gearTa sT n k < π <;> by_cases hc2 : Gear2.gearTa sT n k2 < π
  · rw [if_pos hc1, if_pos hc2]
    intro h
    linarith
  · rw [if_pos hc1, if_neg hc2]
    intro h
    linarith
  · exfalso
    have hge := not_lt.mp hc1
    linarith
  · rw [if_neg hc1, if_neg hc2]
    intro h
    linarith

/-- Witness for the amended C8 at the default sun tooth count 13 with 5
planets, comparing planets 1 and 2. -/
theorem planet_mesh_angles_strictly_increasing_witness :
    Gear2.gearTa 13 5 1 < Gear2.gearTa 13 5 2 ∧
    Gear2.planetSma 13 5 1 ≠ Gear2.planetSma 13 5 2 :=
  planet_mesh_angles_strictly_increasing 13 5 1 2 (by norm_num) (by norm_num)
    (by norm_num) (by norm_num)

namespace Gear2

/-- Python `%` on integers raises `ZeroDivisionError` when the divisor is
zero; otherwise it returns the (nonnegative) remainder. -/
def pyModNat (a b : ℕ) : Except String ℕ :=
  if b = 0 then .error "ZeroDivisionError" else .ok (a % b)

/-- Python `/` on floats raises `ZeroDivisionError` when the divisor is
zero; otherwise it returns the quotient. -/
noncomputable def pyDivR (a b : ℝ) : Except String ℝ :=
  if b = 0 then .error "ZeroDivisionError" else .ok (a / b)

/-- gear2.py `Gear.__init__` with the Python failure behaviour made explicit:
`pN % nplanets` is evaluated unconditionally (it raises when `nplanets = 0`,
before anything else), and in the `pN > 0` branch `pDel = 2*pi/pT` and
`sDel = 2*pi/sT` raise when the respective tooth count is zero. -/
noncomputable def gearInitE (ap : GearAssemblyParams) (nT pN : ℕ) :
    Except String GearRec :=
  match pyModNat pN ap.n with
  | .error e => .error e
  | .ok r =>
    if 0 < pN then
      match pyDivR (2 * π) (ap.p : ℝ) with
      | .error e => .error e
      | .ok _pDel =>
        match pyDivR (2 * π) (ap.s : ℝ) with
        | .error e => .error e
        | .ok sDel =>
          .ok { pd := (nT : ℝ) * ((ap.m : ℝ) / 10)
                td := (nT : ℝ) * ((ap.m : ℝ) / 10) + 2 * ((ap.m : ℝ) / 10)
                rd := (nT : ℝ) * ((ap.m : ℝ) / 10) - 2.5 * ((ap.m : ℝ) / 10)
                loca := 2 * π * (r : ℝ) / (ap.n : ℝ)
                sma :=
                  if (pyInt (2 * π * (r : ℝ) / (ap.n : ℝ) / sDel) : ℝ) * sDel + sDel / 2 < π
                  then (pyInt (2 * π * (r : ℝ) / (ap.n : ℝ) / sDel) : ℝ) * sDel + sDel / 2 + π
                  else (pyInt (2 * π * (r : ℝ) / (ap.n : ℝ) / sDel) : ℝ) * sDel + sDel / 2 - π }
    else
      .ok { pd := (nT : ℝ) * ((ap.m : ℝ) / 10)
            td := (nT : ℝ) * ((ap.m : ℝ) / 10) + 2 * ((ap.m : ℝ) / 10)
            rd := (nT : ℝ) * ((ap.m : ℝ) / 10) - 2.5 * ((ap.m : ℝ) / 10)
            loca := 2 * π * (r : ℝ) / (ap.n : ℝ)
            sma := 0 }

/-- gear2.py `GearAssembly.makeAssembly` with failure made explicit: the sun
gear `Gear(s, 0)` is built first; any `ZeroDivisionError` raised there (or
in a planet constructor) propagates out of the whole assembly build. -/
noncomputable def makeAssemblyE (ap : GearAssemblyParams) :
    Except String (List (GearRec × (ℝ × ℝ))) :=
  match gearInitE ap ap.s 0 with
  | .error e => .error e
  | .ok sun =>
    match (List.range ap.n).mapM (fun i =>
        match gearInitE ap ap.p (1 + i) with
        | .error e => Except.error e
        | .ok plan => Except.ok (plan, gearOffset (some sun) plan)) with
    | .error e => .error e
    | .ok planets => .ok ((sun, gearOffset none sun) :: planets)

end Gear2

/-- C10: when the planet count is 0, the very first step of building the
assembly — constructing the sun gear — evaluates `pN % nplanets` with
`nplanets = 0` and fails with `ZeroDivisionError`, even though no planet
gear was requested; no validation of `n ≥ 1` happens first. -/
theorem assembly_zero_planets_div_error (ap : Gear2.GearAssemblyParams)
    (hn : ap.n = 0) :
    Gear2.gearInitE ap ap.s 0 = .error "ZeroDivisionError" ∧
    Gear2.makeAssemblyE ap = .error "ZeroDivisionError" := by
  have hsun : Gear2.gearInitE ap ap.s 0 = .error "ZeroDivisionError" := by
    rw [Gear2.gearInitE, Gear2.pyModNat, if_pos hn]
  exact ⟨hsun, by rw [Gear2.makeAssemblyE, hsun]⟩

/-- Witness for C10 at the default parameters with the planet count set to
0: the sun-gear construction and the whole assembly build both fail with
`ZeroDivisionError`. -/
theorem assembly_zero_planets_div_error_witness :
    Gear2.gearInitE ⟨20, 25, 31, 23, 0, 7, 13⟩ (13 : ℕ) 0 = .error "ZeroDivisionError" ∧
    Gear2.makeAssemblyE ⟨20, 25, 31, 23, 0, 7, 13⟩ = .error "ZeroDivisionError" :=
  assembly_zero_planets_div_error ⟨20, 25, 31, 23, 0, 7, 13⟩ rfl

/-- Sanity: when no divisor is zero, the explicit-failure model agrees with
the pure gear model used above. -/
theorem gearInitE_agrees (ap : Gear2.GearAssemblyParams) (nT pN : ℕ)
    (hn : ap.n ≠ 0) (hp : ap.p ≠ 0) (hs : ap.s ≠ 0) :
    Gear2.gearInitE ap nT pN = .ok (Gear2.gearInit ap nT pN) := by
  have hpR : (ap.p : ℝ) ≠ 0 := Nat.cast_ne_zero.mpr hp
  have hsR : (ap.s : ℝ) ≠ 0 := Nat.cast_ne_zero.mpr hs
  rw [Gear2.gearInitE, Gear2.pyModNat, if_neg hn]
  by_cases hp0 : 0 < pN
  · simp only [if_pos hp0, Gear2.pyDivR, if_neg hpR, if_neg hsR]
    rw [Gear2.gearInit, Gear2.gearSma, if_pos hp0, Gear2.planetSma, Gear2.gearTa,
      Gear2.gearLoca, Gear2.sunDel]
  · simp only [if_neg hp0]
    rw [Gear2.gearInit, Gear2.gearSma, if_neg hp0, Gear2.gearLoca]
